import Mathlib

/-!
Verification development for the Weather/CLI agent repository
(`src/app.py`, `src/cli.py`).  Both files implement the same agent control
loop: append the user query to a global `message_history`, repeatedly call
the model, `json.loads` the reply, and branch on the decoded `step` field
(PLAN / TOOL / OUTPUT).  We embed the loop shallowly: Python values decoded
from JSON become `JVal`, external effects (the model service, the network,
`subprocess`, the filesystem) become explicit oracle values supplied per
iteration, and a Python exception escaping `run_agent` becomes an explicit
`raise`/`raised` outcome.
-/

/-- A Python value as produced by `json.loads`: `null`/`None`, booleans,
numbers (the repository never relies on non-integer numbers), strings,
lists and dicts.  Dicts are association lists; duplicate keys follow
Python's last-occurrence-wins rule (see `lastLookup`). -/
inductive JVal : Type
| null : JVal
| bool (b : Bool) : JVal
| num (n : Int) : JVal
| str (s : String) : JVal
| arr (xs : List JVal) : JVal
| obj (fields : List (String × JVal)) : JVal

/-- A Python exception, identified by its `str(e)` rendering (the only
thing the repository ever inspects about an exception, in
`safe_llm_call`). -/
structure PyExc : Type where
  msg : String

/-- The content of one message, modelled by its observable behaviour under
`json.loads`: `text s` is a string that `json.loads` rejects (plain text
such as the system prompt, a user query, or a malformed model reply);
`jsonVal j` is a string that `json.loads` parses to the Python value `j`
(a model reply that is valid JSON, or the `json.dumps` serialization of an
observation).  The `.strip()` applied to the raw model text in both files
only normalises whitespace and is absorbed by this abstraction. -/
inductive Content : Type
| text (s : String) : Content
| jsonVal (j : JVal) : Content

/-- One entry of `message_history`: a role tag and a content string. -/
structure Message : Type where
  role : String
  content : Content

/-- Association-list lookup with Python's duplicate-key semantics: when a
JSON object text repeats a key, `json.loads` keeps the last occurrence. -/
def lastLookup : List (String × JVal) → String → Option JVal
| [], _ => none
| (k, v) :: rest, key =>
  match lastLookup rest key with
  | some w => some w
  | none => if k = key then some v else none

/-- `d.get(key)` on a Python dict: the stored value, or `None` when the
key is absent. -/
def dictGet (fields : List (String × JVal)) (key : String) : JVal :=
  (lastLookup fields key).getD .null

/-- A tool registry: the `tools` dict of either file.  Each tool receives
a world oracle `W` (the behaviour of its external effects during this
call) and the Python value passed as `input`, and yields either a string
result or an escaped Python exception. -/
def Registry (W : Type) : Type :=
  List (String × (W → JVal → Except PyExc String))

/-- `tools[name]` lookup (the dict literals of both files have distinct
keys, so first-match lookup agrees with Python). -/
def regLookup {W : Type} (ts : Registry W) (name : String) :
    Option (W → JVal → Except PyExc String) :=
  match ts with
  | [] => none
  | (k, f) :: rest => if k = name then some f else regLookup rest name

/-- The result of one iteration of the `while True:` loop body:
`next` is a `continue` (the loop will issue another model call) carrying
the updated `message_history`; `output` is the `break` in the OUTPUT
branch, carrying the surfaced `step.get("content")` value; `raise` is an
uncaught Python exception aborting `run_agent`. -/
inductive IterResult : Type
| next (hist : List Message) : IterResult
| output (hist : List Message) (answer : JVal) : IterResult
| raise (hist : List Message) (e : PyExc) : IterResult

/-- The `message_history` state carried by an iteration result. -/
def IterResult.histOf : IterResult → List Message
| .next h => h
| .output h _ => h
| .raise h e => let _ := e; h

/-- Discriminator: is this iteration result the OUTPUT `break`? -/
def IterResult.isOutput : IterResult → Bool
| .output _ _ => true
| _ => false

/-- The assistant message appended for a raw model reply
(`message_history.append({"role": "assistant", "content": raw})`). -/
def mkAssistant (c : Content) : Message := ⟨"assistant", c⟩

/-- The content of the observation message built in the TOOL branch:
`json.dumps({"step": "OBSERVE", "tool": tool_name, "output": result})`,
modelled by the Python value that text parses back to. -/
def observeContent (name : String) (result : String) : Content :=
  .jsonVal (.obj [("step", .str "OBSERVE"), ("tool", .str name),
                  ("output", .str result)])

/-- `tools[tool_name]` when `tool_name` is not a registered string key:
Python raises `TypeError` for unhashable keys (lists, dicts) and
`KeyError` otherwise (`None`, booleans, numbers, unknown strings). -/
def lookupExc : JVal → PyExc
| .arr _ => ⟨"TypeError: unhashable type"⟩
| .obj _ => ⟨"TypeError: unhashable type"⟩
| _ => ⟨"KeyError"⟩

/-- `AttributeError` raised by `step.get(...)` when `json.loads` returned
a non-dict value, and by `city.lower()` on a non-string. -/
def attributeErr : PyExc := ⟨"AttributeError"⟩

/-- Do the characters of `pat` occur at the head of `cs`? -/
def charsLeadWith : List Char → List Char → Bool
| [], _ => true
| _ :: _, [] => false
| p :: ps, c :: cs => (p == c) && charsLeadWith ps cs

/-- Does the character sequence `pat` occur contiguously anywhere inside
`cs`?  This is Python's substring test `pat in s` on the underlying
character sequences. -/
def charsContain (pat : List Char) : List Char → Bool
| [] => pat.isEmpty
| c :: cs => charsLeadWith pat (c :: cs) || charsContain pat cs

/-- A Python `try`/`except Exception` block around a string-returning body:
a raised exception is caught and turned into the handler's string.  Each
tool of the repository is its body wrapped in this combinator. -/
def pyCatch (handler : PyExc → String) (body : Except PyExc String) :
    Except PyExc String :=
  match body with
  | .ok s => .ok s
  | .error e => .ok (handler e)

/-- One iteration of the agent loop after the model reply `raw` has been
obtained — the body shared verbatim by `run_agent` in `src/app.py`
(lines 102-156) and `src/cli.py` (lines 166-217):
append the raw reply as an assistant message; `json.loads` it (failure is
caught and the loop continues); read `step.get("step")` (an
`AttributeError` escapes when the parsed value is not a dict); then the
PLAN / TOOL / OUTPUT `if` chain, where a value matching none of the three
string literals falls through every `if` and the `while` loop simply
continues.  In the TOOL branch, `tools[tool_name]` raises when the name is
not a registered key; otherwise the tool runs and exactly one
developer-role observation message is appended. -/
def stepBody {W : Type} (ts : Registry W) (w : W) (hist : List Message)
    (raw : Content) : IterResult :=
  let hist2 := hist ++ [mkAssistant raw]
  match raw with
  | .text _ => .next hist2
  | .jsonVal j =>
    match j with
    | .obj fields =>
      match dictGet fields "step" with
      | .str s =>
        if s = "PLAN" then .next hist2
        else if s = "TOOL" then
          match dictGet fields "tool" with
          | .str name =>
            match regLookup ts name with
            | some fn =>
              match fn w (dictGet fields "input") with
              | .ok result =>
                .next (hist2 ++ [⟨"developer", observeContent name result⟩])
              | .error e => .raise hist2 e
            | none => .raise hist2 ⟨"KeyError: " ++ name⟩
          | v => .raise hist2 (lookupExc v)
        else if s = "OUTPUT" then .output hist2 (dictGet fields "content")
        else .next hist2
      | _ => .next hist2
    | _ => .raise hist2 attributeErr

/-- The final fate of one `run_agent` invocation on a finite trace of
modelled external events: `done` is the OUTPUT `break` (carrying the
final `message_history` and the surfaced content value), `raised` is an
uncaught exception escaping `run_agent`, and `awaiting` means the trace
was exhausted with the loop alive and about to issue its next model
call. -/
inductive Outcome : Type
| done (hist : List Message) (answer : JVal) : Outcome
| raised (hist : List Message) (e : PyExc) : Outcome
| awaiting (hist : List Message) : Outcome

/-- The `message_history` state carried by an outcome. -/
def Outcome.histOf : Outcome → List Message
| .done h _ => h
| .raised h e => let _ := e; h
| .awaiting h => h

/-- Decoded reply classifiers: `isPlanStep`, `isToolStep`, `isOutputStep`
hold when the reply parses to a dict whose `step` entry is the
corresponding string literal. -/
def isPlanStep : Content → Bool
| .jsonVal (.obj fields) =>
  match dictGet fields "step" with
  | .str s => s = "PLAN"
  | _ => false
| _ => false

def isToolStep : Content → Bool
| .jsonVal (.obj fields) =>
  match dictGet fields "step" with
  | .str s => s = "TOOL"
  | _ => false
| _ => false

def isOutputStep : Content → Bool
| .jsonVal (.obj fields) =>
  match dictGet fields "step" with
  | .str s => s = "OUTPUT"
  | _ => false
| _ => false

/-- A reply carries a recognized step kind when it decodes to PLAN, TOOL
or OUTPUT. -/
def hasRecognizedKind (c : Content) : Bool :=
  isPlanStep c || isToolStep c || isOutputStep c

/-- No message in the list carries the system role. -/
def noSystem (l : List Message) : Bool :=
  l.all (fun m => !(m.role == "system"))

namespace App

/-! Embedding of `src/app.py` (the Weather agent). -/

/-- The system prompt of `src/app.py` (lines 33-53). -/
def SYSTEM_PROMPT : String :=
  "\nYou are an AI Weather Agent.\n\nFollow START → PLAN → TOOL → OUTPUT steps.\n\nStrict rules:\n- Always return ONLY valid JSON\n- No extra text\n- One step at a time\n\nJSON format:\n\x7b\n \"step\": \"PLAN\" | \"TOOL\" | \"OUTPUT\",\n \"content\": \"string\",\n \"tool\": \"string\",\n \"input\": \"string\"\n\x7d\n\nAvailable tools:\n- get_weather(city:str)\n"

/-- The behaviour of `requests.get` on the wttr.in URL during one
`get_weather` call: an HTTP response (status code and body text), or a
raised exception (timeout, connection failure, ...). -/
inductive NetResult : Type
| ok (status : Nat) (body : String) : NetResult
| exc (e : PyExc) : NetResult

/-- The external world one `app.py` loop iteration may consult: the
network behaviour of a `get_weather` call made in that iteration. -/
structure World : Type where
  net : NetResult

/-- The `try` body of `get_weather` (`src/app.py` lines 60-67):
`city.lower()` raises `AttributeError` unless `city` is a string; then
`requests.get` either raises or returns a response; status 200 yields the
formatted weather string (note: the message interpolates the original
`city`, not the lowered copy) and any other status yields
"Weather service unavailable". -/
def get_weather_body (net : NetResult) (city : JVal) : Except PyExc String :=
  match city with
  | .str c =>
    match net with
    | .exc e => .error e
    | .ok status body =>
      if status = 200 then .ok ("The weather in " ++ c ++ " is " ++ body)
      else .ok "Weather service unavailable"
  | _ => .error attributeErr

/-- `get_weather` (`src/app.py` lines 59-70): the body wrapped in
`except Exception: return "Weather API error"`. -/
def get_weather (net : NetResult) (city : JVal) : Except PyExc String :=
  pyCatch (fun _ => "Weather API error") (get_weather_body net city)

/-- The `tools` dict of `src/app.py` (lines 73-75). -/
def tools : Registry World :=
  [("get_weather", fun w city => get_weather w.net city)]

/-- The initial global `message_history` (`src/app.py` lines 81-83). -/
def message_history : List Message :=
  [⟨"system", .text SYSTEM_PROMPT⟩]

/-- One modelled iteration of the `while True:` loop of `app.py`'s
`run_agent`: the bare `client.chat.completions.create` call (lines
95-100, not wrapped in any `try`) either raises — the exception escapes
`run_agent` — or returns a reply, together with the world oracle for any
tool call made in that iteration. -/
inductive Event : Type
| raiseE (e : PyExc) : Event
| reply (c : Content) (w : World) : Event

/-- The `while True:` loop of `run_agent` (`src/app.py` lines 93-156),
consuming one event per model call.  An exhausted trace leaves the loop
`awaiting` its next model call. -/
def loop : List Event → List Message → Outcome
| [], hist => .awaiting hist
| .raiseE e :: _, hist => .raised hist e
| .reply c w :: rest, hist =>
  match stepBody tools w hist c with
  | .next h => loop rest h
  | .output h v => .done h v
  | .raise h e => .raised h e

/-- `run_agent(user_query)` (`src/app.py` lines 89-156): append the user
message to the global history and run the loop. -/
def run_agent (user_query : String) (evs : List Event) : Outcome :=
  loop evs (message_history ++ [⟨"user", .text user_query⟩])

end App

namespace Cli

/-! Embedding of `src/cli.py` (the CLI coding agent). -/

/-- The system prompt of `src/cli.py` (lines 33-67). -/
def SYSTEM_PROMPT : String :=
  "\nYou are an autonomous CLI Coding Agent.\n\nYour goal:\nHelp user by creating files, writing code and executing commands.\n\nFollow steps:\nPLAN → TOOL → OUTPUT\n\nRules:\n- ALWAYS return ONLY JSON\n- One step at a time\n- NEVER use shell tricks like echo/touch/cat\n- Use write_file tool to create files\n\nJSON format:\n\x7b\n \"step\":\"PLAN\" | \"TOOL\" | \"OUTPUT\",\n \"content\":\"string\",\n \"tool\":\"string\",\n \"input\":\"string\"\n\x7d\n\nAvailable tools:\n\nrun_command:\n  input -> command string\n\nwrite_file:\n  input -> JSON string:\n  \x7b\"filename\":\"file.py\",\"content\":\"code\"\x7d\n\nread_file:\n  input -> filename string\n"

/-- The behaviour of the `subprocess.run` call during one `run_command`
invocation: a completed process with captured stdout/stderr text, or a
raised exception.  The oracle subsumes everything `subprocess` does with
the command value, including raising on invalid command types. -/
inductive CmdResult : Type
| ran (stdout stderr : String) : CmdResult
| exc (e : PyExc) : CmdResult

/-- The external world one `cli.py` loop iteration may consult:
`cmd` — the `subprocess.run` behaviour for a `run_command` call;
`payloadJson` — the result of `json.loads` on a `write_file` payload
string (`none` when that string is not valid JSON);
`fsWrite` — the outcome of `os.makedirs`/`open`/`write` in `write_file`
(`none` is success);
`fsRead` — the outcome of `open`/`read` in `read_file`. -/
structure World : Type where
  cmd : CmdResult
  payloadJson : Option JVal
  fsWrite : Option PyExc
  fsRead : Except PyExc String

/-- The `try` body of `run_command` (`src/cli.py` lines 77-85):
`output = result.stdout or result.stderr`; return `output.strip()` when
that is non-empty, else "Done.". -/
def run_command_body (res : CmdResult) : Except PyExc String :=
  match res with
  | .exc e => .error e
  | .ran stdout stderr =>
    let output := if stdout = "" then stderr else stdout
    .ok (if output = "" then "Done." else output.trim)

/-- `run_command` (`src/cli.py` lines 75-88): the body wrapped in
`except Exception as e: return str(e)`.  The command value itself is
consumed by `subprocess.run`, whose behaviour is the `res` oracle. -/
def run_command (res : CmdResult) (cmd : JVal) : Except PyExc String :=
  let _ := cmd
  pyCatch (fun e => e.msg) (run_command_body res)

/-- The `try` body of `write_file` (`src/cli.py` lines 93-104):
`json.loads(payload)` raises `TypeError` on a non-string payload and a
decode error on invalid JSON (oracle `payloadJson`); `data["filename"]` /
`data["content"]` raise `TypeError` on a non-dict and `KeyError` on a
missing key; `os.path.dirname` raises `TypeError` on a non-string
filename; the filesystem calls follow the `fsWrite` oracle; `f.write`
raises `TypeError` on non-string content. -/
def write_file_body (w : World) (payload : JVal) : Except PyExc String :=
  match payload with
  | .str _ =>
    match w.payloadJson with
    | none => .error ⟨"json.decoder.JSONDecodeError"⟩
    | some (.obj fields) =>
      match lastLookup fields "filename" with
      | none => .error ⟨"KeyError: filename"⟩
      | some fname =>
        match lastLookup fields "content" with
        | none => .error ⟨"KeyError: content"⟩
        | some fcontent =>
          match fname with
          | .str n =>
            match w.fsWrite with
            | some e => .error e
            | none =>
              match fcontent with
              | .str _ => .ok (n ++ " written successfully")
              | _ => .error ⟨"TypeError: write() argument must be str"⟩
          | _ => .error ⟨"TypeError: expected str"⟩
    | some _ => .error ⟨"TypeError: indices must be str"⟩
  | _ => .error ⟨"TypeError: the JSON object must be str"⟩

/-- `write_file` (`src/cli.py` lines 92-107): the body wrapped in
`except Exception as e: return f"Write error: ..."`. -/
def write_file (w : World) (payload : JVal) : Except PyExc String :=
  pyCatch (fun e => "Write error: " ++ e.msg) (write_file_body w payload)

/-- The `try` body of `read_file` (`src/cli.py` lines 112-114): `open`
accepts a string path or (in CPython) an integer file descriptor — in
both cases the outcome is the `fsRead` oracle — and raises `TypeError`
on other argument types. -/
def read_file_body (w : World) (filename : JVal) : Except PyExc String :=
  match filename with
  | .str _ => w.fsRead
  | .num _ => w.fsRead
  | .bool _ => w.fsRead
  | _ => .error ⟨"TypeError: invalid file"⟩

/-- `read_file` (`src/cli.py` lines 111-117): the body wrapped in
`except Exception as e: return f"Read error: ..."`. -/
def read_file (w : World) (filename : JVal) : Except PyExc String :=
  pyCatch (fun e => "Read error: " ++ e.msg) (read_file_body w filename)

/-- The `tools` dict of `src/cli.py` (lines 120-124). -/
def tools : Registry World :=
  [("run_command", fun w v => run_command w.cmd v),
   ("write_file", fun w v => write_file w v),
   ("read_file", fun w v => read_file w v)]

/-- The initial global `message_history` (`src/cli.py` lines 130-132). -/
def message_history : List Message :=
  [⟨"system", .text SYSTEM_PROMPT⟩]

/-- The outcome of one `client.chat.completions.create` attempt inside
`safe_llm_call`: a returned reply, or a raised exception. -/
inductive Attempt : Type
| ok (c : Content) : Attempt
| exc (e : PyExc) : Attempt

/-- `"429" in str(e)` — the test `safe_llm_call` uses to classify an
exception as a rate-limit failure (`src/cli.py` line 148). -/
def is429 (e : PyExc) : Bool :=
  charsContain "429".toList e.msg.toList

/-- The fate of `safe_llm_call` on a finite trace of attempt outcomes:
a returned reply, a re-raised exception, or `pending` when the trace is
exhausted with the retry loop still running.  Each result carries the
list of `time.sleep` durations performed (one entry `5` per backoff). -/
inductive SafeResult : Type
| ok (c : Content) (sleeps : List Nat) : SafeResult
| raise (e : PyExc) (sleeps : List Nat) : SafeResult
| pending (sleeps : List Nat) : SafeResult

/-- `safe_llm_call` (`src/cli.py` lines 138-152): loop forever; a
successful `create` call returns; an exception whose text contains "429"
sleeps 5 seconds and retries; any other exception is re-raised. -/
def safe_llm_call : List Attempt → List Nat → SafeResult
| [], sleeps => .pending sleeps
| .ok c :: _, sleeps => .ok c sleeps
| .exc e :: rest, sleeps =>
  if is429 e then safe_llm_call rest (sleeps ++ [5]) else .raise e sleeps

/-- One modelled iteration of the `while True:` loop of `cli.py`'s
`run_agent`: the trace of `create` attempts consumed by this iteration's
`safe_llm_call`, and the world oracle for any tool call it makes. -/
structure Event : Type where
  attempts : List Attempt
  w : World

/-- The `while True:` loop of `run_agent` (`src/cli.py` lines 162-217).
A `safe_llm_call` still backing off when its attempt trace runs out
leaves the run `awaiting` the model service, like an exhausted event
trace. -/
def loop : List Event → List Message → Outcome
| [], hist => .awaiting hist
| ev :: rest, hist =>
  match safe_llm_call ev.attempts [] with
  | .pending _ => .awaiting hist
  | .raise e _ => .raised hist e
  | .ok c _ =>
    match stepBody tools ev.w hist c with
    | .next h => loop rest h
    | .output h v => .done h v
    | .raise h e => .raised h e

/-- `run_agent(user_query)` (`src/cli.py` lines 158-217): append the user
message to the global history and run the loop. -/
def run_agent (user_query : String) (evs : List Event) : Outcome :=
  loop evs (message_history ++ [⟨"user", .text user_query⟩])

end Cli

/-!
Helper lemmas about the shared loop body and the two loops.  These are
infrastructure shared by several claim theorems below.
-/

/-- A `try`/`except Exception` wrapper never lets an exception escape. -/
theorem pyCatch_total (handler : PyExc → String) (body : Except PyExc String) :
    ∃ s, pyCatch handler body = .ok s := by
  cases body with
  | ok s => exact ⟨s, rfl⟩
  | error e => exact ⟨handler e, rfl⟩

/-- A parsed object whose `step` entry is none of the three recognized
literals falls through every `if` of the loop body: the iteration is a
plain `continue`. -/
theorem stepBody_unrecognized {W : Type} (ts : Registry W) (w : W)
    (hist : List Message) (fields : List (String × JVal))
    (h : hasRecognizedKind (.jsonVal (.obj fields)) = false) :
    stepBody ts w hist (.jsonVal (.obj fields)) =
      .next (hist ++ [mkAssistant (.jsonVal (.obj fields))]) := by
  rcases hs : dictGet fields "step" with _ | b | n | s | a | o
  · simp [stepBody, hs]
  · simp [stepBody, hs]
  · simp [stepBody, hs]
  · by_cases h1 : s = "PLAN"
    · subst h1; simp [hasRecognizedKind, isPlanStep, hs] at h
    · by_cases h2 : s = "TOOL"
      · subst h2; simp [hasRecognizedKind, isToolStep, hs] at h
      · by_cases h3 : s = "OUTPUT"
        · subst h3; simp [hasRecognizedKind, isOutputStep, hs] at h
        · simp [stepBody, hs, h1, h2, h3]
  · simp [stepBody, hs]
  · simp [stepBody, hs]

/-- The loop body yields the OUTPUT `break` exactly on replies that
decode to an OUTPUT step. -/
theorem stepBody_isOutput {W : Type} (ts : Registry W) (w : W)
    (hist : List Message) (c : Content) :
    (stepBody ts w hist c).isOutput = isOutputStep c := by
  cases c with
  | text s => rfl
  | jsonVal j =>
    cases j with
    | obj fields =>
      rcases hs : dictGet fields "step" with _ | b | n | s | a | o
      · simp [stepBody, isOutputStep, hs, IterResult.isOutput]
      · simp [stepBody, isOutputStep, hs, IterResult.isOutput]
      · simp [stepBody, isOutputStep, hs, IterResult.isOutput]
      · by_cases h1 : s = "PLAN"
        · subst h1; simp [stepBody, isOutputStep, hs, IterResult.isOutput]
        · by_cases h2 : s = "TOOL"
          · subst h2
            simp only [stepBody, hs, isOutputStep]
            split
            · simp_all
            · split <;> (try split) <;> (try split) <;> (try split) <;>
                simp_all [IterResult.isOutput]
          · by_cases h3 : s = "OUTPUT"
            · subst h3; simp [stepBody, isOutputStep, hs, IterResult.isOutput]
            · simp [stepBody, isOutputStep, hs, h1, h2, h3, IterResult.isOutput]
      · simp [stepBody, isOutputStep, hs, IterResult.isOutput]
      · simp [stepBody, isOutputStep, hs, IterResult.isOutput]
    | null => rfl
    | bool b => rfl
    | num n => rfl
    | str s => rfl
    | arr xs => rfl

/-- Existential form of `stepBody_isOutput`. -/
theorem stepBody_output_iff {W : Type} (ts : Registry W) (w : W)
    (hist : List Message) (c : Content) :
    (∃ h v, stepBody ts w hist c = .output h v) ↔ isOutputStep c = true := by
  rw [← stepBody_isOutput ts w hist c]
  generalize stepBody ts w hist c = r
  cases r <;> simp [IterResult.isOutput]

theorem noSystem_append (a b : List Message) :
    noSystem (a ++ b) = (noSystem a && noSystem b) :=
  List.all_append

/-- Every iteration of the loop body only appends messages — one
assistant message, plus possibly one developer observation — and none of
the appended messages carries the system role. -/
theorem stepBody_histOf_append {W : Type} (ts : Registry W) (w : W)
    (hist : List Message) (c : Content) :
    ∃ tail, (stepBody ts w hist c).histOf = hist ++ tail ∧ noSystem tail = true := by
  unfold stepBody
  cases c with
  | text s => exact ⟨[mkAssistant (.text s)], rfl, rfl⟩
  | jsonVal j =>
    cases j
    case obj fields =>
      dsimp only
      split
      case h_1 s hs =>
        split
        · exact ⟨[mkAssistant _], rfl, rfl⟩
        · split
          · split
            case h_1 fn name hname =>
              split
              case h_1 fn2 hfn =>
                split
                case h_1 result hres =>
                  refine ⟨[mkAssistant (.jsonVal (.obj fields)),
                           ⟨"developer", observeContent name result⟩], ?_, rfl⟩
                  simp [IterResult.histOf]
                case h_2 e he =>
                  exact ⟨[mkAssistant _], rfl, rfl⟩
              case h_2 hfn =>
                exact ⟨[mkAssistant _], rfl, rfl⟩
            case h_2 v hv =>
              exact ⟨[mkAssistant _], rfl, rfl⟩
          · split
            · exact ⟨[mkAssistant _], rfl, rfl⟩
            · exact ⟨[mkAssistant _], rfl, rfl⟩
      case h_2 hv =>
        exact ⟨[mkAssistant _], rfl, rfl⟩
    all_goals exact ⟨[mkAssistant _], rfl, rfl⟩

/-- The `app.py` loop only ever appends non-system messages to the
history it was given. -/
theorem app_loop_histOf_append : ∀ (evs : List App.Event) (hist : List Message),
    ∃ tail, (App.loop evs hist).histOf = hist ++ tail ∧ noSystem tail = true := by
  intro evs
  induction evs with
  | nil =>
    intro hist
    exact ⟨[], by simp [App.loop, Outcome.histOf], rfl⟩
  | cons ev rest ih =>
    intro hist
    cases ev with
    | raiseE e => exact ⟨[], by simp [App.loop, Outcome.histOf], rfl⟩
    | reply c w =>
      obtain ⟨t1, h1, hn1⟩ := stepBody_histOf_append App.tools w hist c
      rcases hsb : stepBody App.tools w hist c with h | ⟨h, v⟩ | ⟨h, e⟩ <;>
        rw [hsb] at h1 <;> simp [IterResult.histOf] at h1
      · subst h1
        obtain ⟨t2, h2, hn2⟩ := ih (hist ++ t1)
        refine ⟨t1 ++ t2, ?_, ?_⟩
        · simp [App.loop, hsb, h2]
        · simp [noSystem_append, hn1, hn2]
      · exact ⟨t1, by simp [App.loop, hsb, Outcome.histOf, h1], hn1⟩
      · exact ⟨t1, by simp [App.loop, hsb, Outcome.histOf, h1], hn1⟩

/-- The `cli.py` loop only ever appends non-system messages to the
history it was given. -/
theorem cli_loop_histOf_append : ∀ (evs : List Cli.Event) (hist : List Message),
    ∃ tail, (Cli.loop evs hist).histOf = hist ++ tail ∧ noSystem tail = true := by
  intro evs
  induction evs with
  | nil =>
    intro hist
    exact ⟨[], by simp [Cli.loop, Outcome.histOf], rfl⟩
  | cons ev rest ih =>
    intro hist
    rcases hsl : Cli.safe_llm_call ev.attempts [] with ⟨c, sl⟩ | ⟨e, sl⟩ | sl
    · obtain ⟨t1, h1, hn1⟩ := stepBody_histOf_append Cli.tools ev.w hist c
      rcases hsb : stepBody Cli.tools ev.w hist c with h | ⟨h, v⟩ | ⟨h, e⟩ <;>
        rw [hsb] at h1 <;> simp [IterResult.histOf] at h1
      · subst h1
        obtain ⟨t2, h2, hn2⟩ := ih (hist ++ t1)
        refine ⟨t1 ++ t2, ?_, ?_⟩
        · simp [Cli.loop, hsl, hsb, h2]
        · simp [noSystem_append, hn1, hn2]
      · exact ⟨t1, by simp [Cli.loop, hsl, hsb, Outcome.histOf, h1], hn1⟩
      · exact ⟨t1, by simp [Cli.loop, hsl, hsb, Outcome.histOf, h1], hn1⟩
    · exact ⟨[], by simp [Cli.loop, hsl, Outcome.histOf], rfl⟩
    · exact ⟨[], by simp [Cli.loop, hsl, Outcome.histOf], rfl⟩

/-- A normal exit of the `app.py` loop can only come from a consumed
reply that decodes to an OUTPUT step. -/
theorem app_loop_done_sound : ∀ (evs : List App.Event) (hist h : List Message) (v : JVal),
    App.loop evs hist = .done h v →
    ∃ c w, App.Event.reply c w ∈ evs ∧ isOutputStep c = true := by
  intro evs
  induction evs with
  | nil => intro hist h v heq; simp [App.loop] at heq
  | cons ev rest ih =>
    intro hist h v heq
    cases ev with
    | raiseE e => simp [App.loop] at heq
    | reply c w =>
      rcases hsb : stepBody App.tools w hist c with h2 | ⟨h2, v2⟩ | ⟨h2, e2⟩
      · simp only [App.loop, hsb] at heq
        obtain ⟨c2, w2, hm, ho⟩ := ih h2 h v heq
        exact ⟨c2, w2, by simp [hm], ho⟩
      · refine ⟨c, w, by simp, ?_⟩
        exact (stepBody_output_iff App.tools w hist c).mp ⟨h2, v2, hsb⟩
      · simp [App.loop, hsb] at heq

/-- A normal exit of the `cli.py` loop can only come from a gateway
reply that decodes to an OUTPUT step. -/
theorem cli_loop_done_sound : ∀ (evs : List Cli.Event) (hist h : List Message) (v : JVal),
    Cli.loop evs hist = .done h v →
    ∃ ev, ev ∈ evs ∧ ∃ c sleeps, Cli.safe_llm_call ev.attempts [] = .ok c sleeps ∧
      isOutputStep c = true := by
  intro evs
  induction evs with
  | nil => intro hist h v heq; simp [Cli.loop] at heq
  | cons ev rest ih =>
    intro hist h v heq
    rcases hsl : Cli.safe_llm_call ev.attempts [] with ⟨c, sl⟩ | ⟨e, sl⟩ | sl
    · rcases hsb : stepBody Cli.tools ev.w hist c with h2 | ⟨h2, v2⟩ | ⟨h2, e2⟩
      · simp only [Cli.loop, hsl, hsb] at heq
        obtain ⟨ev2, hm, rest2⟩ := ih h2 h v heq
        exact ⟨ev2, by simp [hm], rest2⟩
      · refine ⟨ev, by simp, c, sl, hsl, ?_⟩
        exact (stepBody_output_iff Cli.tools ev.w hist c).mp ⟨h2, v2, hsb⟩
      · simp [Cli.loop, hsl, hsb] at heq
    · simp [Cli.loop, hsl] at heq
    · simp [Cli.loop, hsl] at heq

/-- Every function registered in `app.py`'s `tools` dict is total (its
body is wrapped in a catch-all handler). -/
theorem app_tools_total (name : String) (fn : App.World → JVal → Except PyExc String)
    (hreg : regLookup App.tools name = some fn) (w : App.World) (v : JVal) :
    ∃ s, fn w v = .ok s := by
  simp only [App.tools, regLookup] at hreg
  split at hreg
  · cases hreg
    exact pyCatch_total _ _
  · cases hreg

/-- Every function registered in `cli.py`'s `tools` dict is total (each
body is wrapped in a catch-all handler). -/
theorem cli_tools_total (name : String) (fn : Cli.World → JVal → Except PyExc String)
    (hreg : regLookup Cli.tools name = some fn) (w : Cli.World) (v : JVal) :
    ∃ s, fn w v = .ok s := by
  simp only [Cli.tools, regLookup] at hreg
  split at hreg
  · cases hreg
    exact pyCatch_total _ _
  · split at hreg
    · cases hreg
      exact pyCatch_total _ _
    · split at hreg
      · cases hreg
        exact pyCatch_total _ _
      · cases hreg

/-- TOOL branch, registered tool: the tool runs on the decoded `input`
value and the iteration continues after appending the assistant message
and exactly one developer observation message. -/
theorem stepBody_tool_registered {W : Type} (ts : Registry W) (w : W)
    (hist : List Message) (fields : List (String × JVal)) (name : String)
    (fn : W → JVal → Except PyExc String)
    (hstep : dictGet fields "step" = JVal.str "TOOL")
    (hname : dictGet fields "tool" = JVal.str name)
    (hreg : regLookup ts name = some fn)
    (htot : ∀ w v, ∃ s, fn w v = Except.ok s) :
    ∃ s, fn w (dictGet fields "input") = Except.ok s ∧
      stepBody ts w hist (.jsonVal (.obj fields)) =
        .next (hist ++ [mkAssistant (.jsonVal (.obj fields)),
                        ⟨"developer", observeContent name s⟩]) := by
  obtain ⟨s, hs⟩ := htot w (dictGet fields "input")
  refine ⟨s, hs, ?_⟩
  simp [stepBody, hstep, hname, hreg, hs]

/-- TOOL branch, unregistered tool: `tools[tool_name]` raises `KeyError`
and the iteration aborts with only the assistant message appended. -/
theorem stepBody_tool_unregistered {W : Type} (ts : Registry W) (w : W)
    (hist : List Message) (fields : List (String × JVal)) (name : String)
    (hstep : dictGet fields "step" = JVal.str "TOOL")
    (hname : dictGet fields "tool" = JVal.str name)
    (hreg : regLookup ts name = none) :
    stepBody ts w hist (.jsonVal (.obj fields)) =
      .raise (hist ++ [mkAssistant (.jsonVal (.obj fields))])
        ⟨"KeyError: " ++ name⟩ := by
  simp [stepBody, hstep, hname, hreg]

/-- A reply parsing to a non-dict JSON value escapes the `json.loads`
guard but crashes on `step.get("step")`. -/
theorem stepBody_nonobj {W : Type} (ts : Registry W) (w : W)
    (hist : List Message) (j : JVal)
    (h : ∀ fields, j ≠ JVal.obj fields) :
    stepBody ts w hist (.jsonVal j) =
      .raise (hist ++ [mkAssistant (.jsonVal j)]) attributeErr := by
  cases j with
  | obj fields => exact absurd rfl (h fields)
  | null => rfl
  | bool b => rfl
  | num n => rfl
  | str s => rfl
  | arr xs => rfl

/-- PLAN branch: the iteration is a plain `continue`. -/
theorem stepBody_plan {W : Type} (ts : Registry W) (w : W)
    (hist : List Message) (fields : List (String × JVal))
    (hstep : dictGet fields "step" = JVal.str "PLAN") :
    stepBody ts w hist (.jsonVal (.obj fields)) =
      .next (hist ++ [mkAssistant (.jsonVal (.obj fields))]) := by
  simp [stepBody, hstep]

/-- OUTPUT branch: the loop breaks and surfaces `step.get("content")`. -/
theorem stepBody_output_of {W : Type} (ts : Registry W) (w : W)
    (hist : List Message) (fields : List (String × JVal))
    (h : dictGet fields "step" = JVal.str "OUTPUT") :
    stepBody ts w hist (.jsonVal (.obj fields)) =
      .output (hist ++ [mkAssistant (.jsonVal (.obj fields))])
        (dictGet fields "content") := by
  simp [stepBody, h]

/-- A reply `json.loads` rejects is caught and the iteration continues. -/
theorem stepBody_text {W : Type} (ts : Registry W) (w : W)
    (hist : List Message) (s : String) :
    stepBody ts w hist (.text s) = .next (hist ++ [mkAssistant (.text s)]) := rfl

/-- Claim C5: for every TOOL step whose tool name is absent from the Tool
Registry, dispatch fails with a Dispatch Error (`KeyError` from
`tools[tool_name]`) that is fatal to the current request: the loop run
aborts and no observation message is appended to Conversation Memory for
that step (only the assistant message itself was appended).  Shown for
the loop body generically and for both agents' loops. -/
theorem unregistered_tool_dispatch_fatal :
    (∀ (W : Type) (ts : Registry W) (w : W) (hist : List Message)
       (fields : List (String × JVal)) (name : String),
      dictGet fields "step" = JVal.str "TOOL" →
      dictGet fields "tool" = JVal.str name →
      regLookup ts name = none →
      stepBody ts w hist (.jsonVal (.obj fields)) =
        .raise (hist ++ [mkAssistant (.jsonVal (.obj fields))])
          ⟨"KeyError: " ++ name⟩)
    ∧ (∀ (evs : List App.Event) (w : App.World) (hist : List Message)
         (fields : List (String × JVal)) (name : String),
      dictGet fields "step" = JVal.str "TOOL" →
      dictGet fields "tool" = JVal.str name →
      regLookup App.tools name = none →
      App.loop (App.Event.reply (.jsonVal (.obj fields)) w :: evs) hist =
        .raised (hist ++ [mkAssistant (.jsonVal (.obj fields))])
          ⟨"KeyError: " ++ name⟩)
    ∧ (∀ (evs : List Cli.Event) (w : Cli.World) (hist : List Message)
         (fields : List (String × JVal)) (name : String),
      dictGet fields "step" = JVal.str "TOOL" →
      dictGet fields "tool" = JVal.str name →
      regLookup Cli.tools name = none →
      Cli.loop (⟨[Cli.Attempt.ok (.jsonVal (.obj fields))], w⟩ :: evs) hist =
        .raised (hist ++ [mkAssistant (.jsonVal (.obj fields))])
          ⟨"KeyError: " ++ name⟩) := by
  refine ⟨fun W ts w hist fields name h1 h2 h3 =>
    stepBody_tool_unregistered ts w hist fields name h1 h2 h3, ?_, ?_⟩
  · intro evs w hist fields name h1 h2 h3
    simp [App.loop, stepBody_tool_unregistered App.tools w hist fields name h1 h2 h3]
  · intro evs w hist fields name h1 h2 h3
    simp [Cli.loop, Cli.safe_llm_call,
      stepBody_tool_unregistered Cli.tools w hist fields name h1 h2 h3]

/-- Witness for C5: the spec's own scenario — tool name
"delete_everything" is not registered, so dispatch raises `KeyError` and
the run aborts with no observation appended. -/
theorem unregistered_tool_dispatch_fatal_witness :
    stepBody App.tools ⟨App.NetResult.ok 200 ""⟩ []
      (.jsonVal (.obj [("step", .str "TOOL"), ("tool", .str "delete_everything"),
                       ("input", .str "now")])) =
      .raise [mkAssistant (.jsonVal (.obj [("step", .str "TOOL"),
                ("tool", .str "delete_everything"), ("input", .str "now")]))]
        ⟨"KeyError: " ++ "delete_everything"⟩ :=
  unregistered_tool_dispatch_fatal.1 App.World App.tools ⟨App.NetResult.ok 200 ""⟩ []
    [("step", .str "TOOL"), ("tool", .str "delete_everything"), ("input", .str "now")]
    "delete_everything" rfl rfl rfl

/-- Claim C6: for every loop run that reaches a step of kind OUTPUT, the
loop exits and that step's `content` value is the final answer surfaced
by `run_agent` (the source prints it at the `break` site; the `done`
outcome carries it).  Shown for the loop body generically and for both
agents' loops. -/
theorem output_step_returns_content :
    (∀ (W : Type) (ts : Registry W) (w : W) (hist : List Message)
       (fields : List (String × JVal)),
      dictGet fields "step" = JVal.str "OUTPUT" →
      stepBody ts w hist (.jsonVal (.obj fields)) =
        .output (hist ++ [mkAssistant (.jsonVal (.obj fields))])
          (dictGet fields "content"))
    ∧ (∀ (evs : List App.Event) (w : App.World) (hist : List Message)
         (fields : List (String × JVal)),
      dictGet fields "step" = JVal.str "OUTPUT" →
      App.loop (App.Event.reply (.jsonVal (.obj fields)) w :: evs) hist =
        .done (hist ++ [mkAssistant (.jsonVal (.obj fields))])
          (dictGet fields "content"))
    ∧ (∀ (evs : List Cli.Event) (w : Cli.World) (hist : List Message)
         (fields : List (String × JVal)),
      dictGet fields "step" = JVal.str "OUTPUT" →
      Cli.loop (⟨[Cli.Attempt.ok (.jsonVal (.obj fields))], w⟩ :: evs) hist =
        .done (hist ++ [mkAssistant (.jsonVal (.obj fields))])
          (dictGet fields "content")) := by
  refine ⟨fun W ts w hist fields h => stepBody_output_of ts w hist fields h, ?_, ?_⟩
  · intro evs w hist fields h
    simp [App.loop, stepBody_output_of App.tools w hist fields h]
  · intro evs w hist fields h
    simp [Cli.loop, Cli.safe_llm_call, stepBody_output_of Cli.tools w hist fields h]

/-- Witness for C6: a concrete OUTPUT step exits the `app.py` loop and
returns its content. -/
theorem output_step_returns_content_witness :
    App.loop [App.Event.reply
        (.jsonVal (.obj [("step", .str "OUTPUT"), ("content", .str "It is sunny")]))
        ⟨App.NetResult.ok 200 ""⟩] [] =
      .done [mkAssistant (.jsonVal (.obj [("step", .str "OUTPUT"),
               ("content", .str "It is sunny")]))]
        (dictGet [("step", .str "OUTPUT"), ("content", .str "It is sunny")] "content") :=
  output_step_returns_content.2.1 [] ⟨App.NetResult.ok 200 ""⟩ []
    [("step", .str "OUTPUT"), ("content", .str "It is sunny")] rfl

/-- Claim C7: for every well-formed TOOL step whose named tool exists in
the registry, dispatch appends exactly one observation-carrier message —
the serialized Observation with that tool's name and string result — to
Conversation Memory, never zero and never more than one.  Shown for both
agents' registries (whose tools are total, so the tool call always yields
a string result). -/
theorem registered_tool_appends_one_observation :
    (∀ (w : App.World) (hist : List Message) (fields : List (String × JVal))
       (name : String) (fn : App.World → JVal → Except PyExc String),
      dictGet fields "step" = JVal.str "TOOL" →
      dictGet fields "tool" = JVal.str name →
      regLookup App.tools name = some fn →
      ∃ s, fn w (dictGet fields "input") = Except.ok s ∧
        stepBody App.tools w hist (.jsonVal (.obj fields)) =
          .next (hist ++ [mkAssistant (.jsonVal (.obj fields)),
                          ⟨"developer", observeContent name s⟩]))
    ∧ (∀ (w : Cli.World) (hist : List Message) (fields : List (String × JVal))
         (name : String) (fn : Cli.World → JVal → Except PyExc String),
      dictGet fields "step" = JVal.str "TOOL" →
      dictGet fields "tool" = JVal.str name →
      regLookup Cli.tools name = some fn →
      ∃ s, fn w (dictGet fields "input") = Except.ok s ∧
        stepBody Cli.tools w hist (.jsonVal (.obj fields)) =
          .next (hist ++ [mkAssistant (.jsonVal (.obj fields)),
                          ⟨"developer", observeContent name s⟩])) := by
  constructor
  · intro w hist fields name fn h1 h2 h3
    exact stepBody_tool_registered App.tools w hist fields name fn h1 h2 h3
      (app_tools_total name fn h3)
  · intro w hist fields name fn h1 h2 h3
    exact stepBody_tool_registered Cli.tools w hist fields name fn h1 h2 h3
      (cli_tools_total name fn h3)

/-- Witness for C7: the spec's scenario — a TOOL step calling
`get_weather` with input "Paris" appends exactly one observation. -/
theorem registered_tool_appends_one_observation_witness :
    ∃ s, (fun (w : App.World) city => App.get_weather w.net city) ⟨App.NetResult.ok 200 "Sunny +20"⟩
        (dictGet [("step", .str "TOOL"), ("tool", .str "get_weather"),
                  ("input", .str "Paris")] "input") = Except.ok s ∧
      stepBody App.tools ⟨App.NetResult.ok 200 "Sunny +20"⟩ []
        (.jsonVal (.obj [("step", .str "TOOL"), ("tool", .str "get_weather"),
                         ("input", .str "Paris")])) =
        .next [mkAssistant (.jsonVal (.obj [("step", .str "TOOL"),
                 ("tool", .str "get_weather"), ("input", .str "Paris")])),
               ⟨"developer", observeContent "get_weather" s⟩] :=
  registered_tool_appends_one_observation.1 ⟨App.NetResult.ok 200 "Sunny +20"⟩ []
    [("step", .str "TOOL"), ("tool", .str "get_weather"), ("input", .str "Paris")]
    "get_weather" (fun w city => App.get_weather w.net city) rfl rfl rfl

/-- Claim C8: throughout every loop run, Conversation Memory begins with
exactly one system message and only grows: the initial history is the
singleton system message, every loop-body iteration and every whole run
only appends messages at the end (the prior history is literally a prefix
of the later one, so nothing is reordered, replaced or removed), and no
appended message carries the system role. -/
theorem memory_append_only_single_system :
    App.message_history = [⟨"system", .text App.SYSTEM_PROMPT⟩]
    ∧ Cli.message_history = [⟨"system", .text Cli.SYSTEM_PROMPT⟩]
    ∧ (∀ (W : Type) (ts : Registry W) (w : W) (hist : List Message) (c : Content),
        ∃ tail, (stepBody ts w hist c).histOf = hist ++ tail ∧ noSystem tail = true)
    ∧ (∀ (evs : List App.Event) (hist : List Message),
        ∃ tail, (App.loop evs hist).histOf = hist ++ tail ∧ noSystem tail = true)
    ∧ (∀ (evs : List Cli.Event) (hist : List Message),
        ∃ tail, (Cli.loop evs hist).histOf = hist ++ tail ∧ noSystem tail = true)
    ∧ (∀ (q : String) (evs : List App.Event),
        ∃ tail, (App.run_agent q evs).histOf =
          ⟨"system", .text App.SYSTEM_PROMPT⟩ :: ⟨"user", .text q⟩ :: tail ∧
          noSystem (⟨"user", Content.text q⟩ :: tail) = true)
    ∧ (∀ (q : String) (evs : List Cli.Event),
        ∃ tail, (Cli.run_agent q evs).histOf =
          ⟨"system", .text Cli.SYSTEM_PROMPT⟩ :: ⟨"user", .text q⟩ :: tail ∧
          noSystem (⟨"user", Content.text q⟩ :: tail) = true) := by
  refine ⟨rfl, rfl,
    fun W ts w hist c => stepBody_histOf_append ts w hist c,
    app_loop_histOf_append, cli_loop_histOf_append, ?_, ?_⟩
  · intro q evs
    obtain ⟨t, ht, hn⟩ :=
      app_loop_histOf_append evs (App.message_history ++ [⟨"user", .text q⟩])
    refine ⟨t, ?_, ?_⟩
    · simpa [App.run_agent, App.message_history] using ht
    · simpa [noSystem] using hn
  · intro q evs
    obtain ⟨t, ht, hn⟩ :=
      cli_loop_histOf_append evs (Cli.message_history ++ [⟨"user", .text q⟩])
    refine ⟨t, ?_, ?_⟩
    · simpa [Cli.run_agent, Cli.message_history] using ht
    · simpa [noSystem] using hn

/-- Claim C9: for every registered tool and every input value, invoking
the tool returns a string and never raises to the loop: each of the four
bundled tools (`get_weather`; `run_command`, `write_file`, `read_file`)
wraps its body — which can raise on malformed input, I/O failure or
network failure — in a catch-all handler producing a descriptive error
string, so the call is total. -/
theorem tools_never_raise :
    (∀ (net : App.NetResult) (city : JVal), ∃ s, App.get_weather net city = .ok s)
    ∧ (∀ (res : Cli.CmdResult) (cmd : JVal), ∃ s, Cli.run_command res cmd = .ok s)
    ∧ (∀ (w : Cli.World) (payload : JVal), ∃ s, Cli.write_file w payload = .ok s)
    ∧ (∀ (w : Cli.World) (filename : JVal), ∃ s, Cli.read_file w filename = .ok s) :=
  ⟨fun _ _ => pyCatch_total _ _,
   fun _ _ => pyCatch_total _ _,
   fun _ _ => pyCatch_total _ _,
   fun _ _ => pyCatch_total _ _⟩

/-- Claim C10: for every decoded TOOL step whose named tool is
registered, dispatch performs no presence or type validation of the
`input` field: when `input` is absent (`lastLookup ... = none`),
`step.get("input")` yields `None` (`JVal.null`) and the tool is invoked
with it; because each bundled tool catches all exceptions, an Observation
string is still produced and the loop continues rather than failing.  For
`get_weather`, a `None` city makes `city.lower()` raise inside the tool,
caught as the string "Weather API error". -/
theorem dispatch_no_input_validation :
    (∀ (w : App.World) (hist : List Message) (fields : List (String × JVal)),
      dictGet fields "step" = JVal.str "TOOL" →
      dictGet fields "tool" = JVal.str "get_weather" →
      lastLookup fields "input" = none →
      App.get_weather w.net JVal.null = Except.ok "Weather API error" ∧
      stepBody App.tools w hist (.jsonVal (.obj fields)) =
        .next (hist ++ [mkAssistant (.jsonVal (.obj fields)),
                        ⟨"developer", observeContent "get_weather" "Weather API error"⟩]))
    ∧ (∀ (w : Cli.World) (hist : List Message) (fields : List (String × JVal))
         (name : String) (fn : Cli.World → JVal → Except PyExc String),
      dictGet fields "step" = JVal.str "TOOL" →
      dictGet fields "tool" = JVal.str name →
      regLookup Cli.tools name = some fn →
      lastLookup fields "input" = none →
      ∃ s, fn w JVal.null = Except.ok s ∧
        stepBody Cli.tools w hist (.jsonVal (.obj fields)) =
          .next (hist ++ [mkAssistant (.jsonVal (.obj fields)),
                          ⟨"developer", observeContent name s⟩])) := by
  constructor
  · intro w hist fields h1 h2 hinput
    have hi : dictGet fields "input" = JVal.null := by simp [dictGet, hinput]
    obtain ⟨s, hs, hbody⟩ := stepBody_tool_registered App.tools w hist fields
      "get_weather" (fun w city => App.get_weather w.net city) h1 h2 rfl
      (app_tools_total "get_weather" (fun w city => App.get_weather w.net city) rfl)
    rw [hi] at hs
    have hval : s = "Weather API error" := by
      have : App.get_weather w.net JVal.null = Except.ok "Weather API error" := by
        cases hnet : w.net <;> rfl
      rw [this] at hs
      exact (Except.ok.inj hs).symm
    subst hval
    refine ⟨by cases hnet : w.net <;> rfl, hbody⟩
  · intro w hist fields name fn h1 h2 h3 hinput
    have hi : dictGet fields "input" = JVal.null := by simp [dictGet, hinput]
    obtain ⟨s, hs, hbody⟩ := stepBody_tool_registered Cli.tools w hist fields
      name fn h1 h2 h3 (cli_tools_total name fn h3)
    rw [hi] at hs
    exact ⟨s, hs, hbody⟩

/-- Witness for C10: a TOOL step naming `get_weather` with no `input`
field still produces an observation (the tool's internal error string). -/
theorem dispatch_no_input_validation_witness :
    App.get_weather (App.NetResult.ok 200 "Sunny") JVal.null = Except.ok "Weather API error" ∧
    stepBody App.tools ⟨App.NetResult.ok 200 "Sunny"⟩ []
      (.jsonVal (.obj [("step", .str "TOOL"), ("tool", .str "get_weather")])) =
      .next [mkAssistant (.jsonVal (.obj [("step", .str "TOOL"),
               ("tool", .str "get_weather")])),
             ⟨"developer", observeContent "get_weather" "Weather API error"⟩] :=
  dispatch_no_input_validation.1 ⟨App.NetResult.ok 200 "Sunny"⟩ []
    [("step", .str "TOOL"), ("tool", .str "get_weather")] rfl rfl rfl

/-- Claim C1 counterexample: the claim says every iteration that decodes
a TOOL step continues with another model call and that the loop
terminates only when an OUTPUT step is produced.  Concretely, a TOOL
step naming the unregistered tool "delete_everything" makes the very
first iteration abort the run with a `KeyError`: the run terminates
although no OUTPUT step was ever produced, and the TOOL-decoding
iteration did not continue. -/
theorem tool_step_can_abort_loop_without_output :
    isToolStep (.jsonVal (.obj [("step", .str "TOOL"),
      ("tool", .str "delete_everything"), ("input", .str "now")])) = true
    ∧ App.run_agent "clean up"
        [App.Event.reply (.jsonVal (.obj [("step", .str "TOOL"),
           ("tool", .str "delete_everything"), ("input", .str "now")]))
         ⟨App.NetResult.ok 200 ""⟩] =
      .raised (App.message_history ++ [⟨"user", .text "clean up"⟩,
          mkAssistant (.jsonVal (.obj [("step", .str "TOOL"),
            ("tool", .str "delete_everything"), ("input", .str "now")]))])
        ⟨"KeyError: " ++ "delete_everything"⟩ := by
  constructor
  · rfl
  · rfl

/-- Claim C1 (amended): the loop RETURNS NORMALLY if and only if a
decoded step of kind OUTPUT is produced; an iteration that decodes a
PLAN step, an unrecognized step kind, or fails to decode continues with
another model call, and the first OUTPUT step exits the loop — but a
TOOL step whose tool is unregistered, or a fatal model-service error,
aborts the run exceptionally without an OUTPUT step. -/
theorem loop_normal_exit_iff_output_step :
    (∀ (W : Type) (ts : Registry W) (w : W) (hist : List Message) (c : Content),
      (∃ h v, stepBody ts w hist c = .output h v) ↔ isOutputStep c = true)
    ∧ (∀ (evs : List App.Event) (hist h : List Message) (v : JVal),
        App.loop evs hist = .done h v →
        ∃ c w, App.Event.reply c w ∈ evs ∧ isOutputStep c = true)
    ∧ (∀ (evs : List Cli.Event) (hist h : List Message) (v : JVal),
        Cli.loop evs hist = .done h v →
        ∃ ev, ev ∈ evs ∧ ∃ c sleeps,
          Cli.safe_llm_call ev.attempts [] = .ok c sleeps ∧ isOutputStep c = true)
    ∧ (∀ (W : Type) (ts : Registry W) (w : W) (hist : List Message) (s : String),
        stepBody ts w hist (.text s) = .next (hist ++ [mkAssistant (.text s)]))
    ∧ (∀ (W : Type) (ts : Registry W) (w : W) (hist : List Message)
         (fields : List (String × JVal)),
        dictGet fields "step" = JVal.str "PLAN" →
        stepBody ts w hist (.jsonVal (.obj fields)) =
          .next (hist ++ [mkAssistant (.jsonVal (.obj fields))]))
    ∧ (∀ (W : Type) (ts : Registry W) (w : W) (hist : List Message)
         (fields : List (String × JVal)),
        hasRecognizedKind (.jsonVal (.obj fields)) = false →
        stepBody ts w hist (.jsonVal (.obj fields)) =
          .next (hist ++ [mkAssistant (.jsonVal (.obj fields))])) :=
  ⟨fun _ ts w hist c => stepBody_output_iff ts w hist c,
   app_loop_done_sound, cli_loop_done_sound,
   fun _ ts w hist s => stepBody_text ts w hist s,
   fun _ ts w hist fields h => stepBody_plan ts w hist fields h,
   fun _ ts w hist fields h => stepBody_unrecognized ts w hist fields h⟩

/-- Witness for C1 (amended): a concrete normal exit, with the
done-soundness clause recovering the OUTPUT reply from the trace. -/
theorem loop_normal_exit_iff_output_step_witness :
    ∃ c w, App.Event.reply c w ∈
        [App.Event.reply (.jsonVal (.obj [("step", .str "OUTPUT"),
           ("content", .str "42")])) ⟨App.NetResult.ok 200 ""⟩] ∧
      isOutputStep c = true :=
  loop_normal_exit_iff_output_step.2.1
    [App.Event.reply (.jsonVal (.obj [("step", .str "OUTPUT"),
       ("content", .str "42")])) ⟨App.NetResult.ok 200 ""⟩]
    []
    [mkAssistant (.jsonVal (.obj [("step", .str "OUTPUT"), ("content", .str "42")]))]
    (.str "42") rfl

/-- Claim C2 counterexample: the claim says every model-gateway call that
fails with the rate-limit signal is retried after a 5-second backoff.  In
`src/app.py`, the `client.chat.completions.create` call is not wrapped in
any handler, so a rate-limit failure (exception text containing "429")
propagates out of `run_agent` unretried. -/
theorem rate_limit_propagates_in_app_agent :
    Cli.is429 ⟨"Error code: 429 - too many requests"⟩ = true
    ∧ App.run_agent "hi"
        [App.Event.raiseE ⟨"Error code: 429 - too many requests"⟩] =
      .raised (App.message_history ++ [⟨"user", .text "hi"⟩])
        ⟨"Error code: 429 - too many requests"⟩ := by
  constructor
  · rfl
  · rfl

/-- Claim C2 (amended): in `cli.py`, `safe_llm_call` retries — with one
fixed 5-second sleep per attempt — exactly those failures whose exception
text contains "429" (the service's too-many-requests signal), for an
unbounded number of attempts, and re-raises every other failure to the
caller; in `app.py`, the model call is unguarded, so every failure
(including rate limiting) propagates to the caller unhandled. -/
theorem retry_policy :
    (∀ (rest : List Cli.Attempt) (sleeps : List Nat) (c : Content),
      Cli.safe_llm_call (.ok c :: rest) sleeps = .ok c sleeps)
    ∧ (∀ (rest : List Cli.Attempt) (sleeps : List Nat) (e : PyExc),
        Cli.is429 e = true →
        Cli.safe_llm_call (.exc e :: rest) sleeps =
          Cli.safe_llm_call rest (sleeps ++ [5]))
    ∧ (∀ (rest : List Cli.Attempt) (sleeps : List Nat) (e : PyExc),
        Cli.is429 e = false →
        Cli.safe_llm_call (.exc e :: rest) sleeps = .raise e sleeps)
    ∧ (∀ (n : Nat) (c : Content) (e : PyExc),
        Cli.is429 e = true →
        Cli.safe_llm_call (List.replicate n (.exc e) ++ [.ok c]) [] =
          .ok c (List.replicate n 5))
    ∧ (∀ (q : String) (e : PyExc) (evs : List App.Event),
        App.run_agent q (App.Event.raiseE e :: evs) =
          .raised (App.message_history ++ [⟨"user", .text q⟩]) e) := by
  have hgen : ∀ (n : Nat) (sleeps : List Nat) (c : Content) (e : PyExc),
      Cli.is429 e = true →
      Cli.safe_llm_call (List.replicate n (.exc e) ++ [.ok c]) sleeps =
        .ok c (sleeps ++ List.replicate n 5) := by
    intro n
    induction n with
    | zero => intro sleeps c e he; simp [Cli.safe_llm_call]
    | succ m ih =>
      intro sleeps c e he
      simp only [List.replicate_succ, List.cons_append, Cli.safe_llm_call, he,
        if_true, List.append_eq]
      rw [ih (sleeps ++ [5]) c e he]
      simp
  refine ⟨fun rest sleeps c => rfl, ?_, ?_, ?_, ?_⟩
  · intro rest sleeps e he
    simp [Cli.safe_llm_call, he]
  · intro rest sleeps e he
    simp [Cli.safe_llm_call, he]
  · intro n c e he
    simpa using hgen n [] c e he
  · intro q e evs
    rfl

/-- Witness for C2 (amended): the spec's scenario — the service reports a
rate-limit condition twice, then succeeds: exactly two 5-second backoffs
occur and the reply is returned. -/
theorem retry_policy_witness :
    Cli.safe_llm_call
      [Cli.Attempt.exc ⟨"Error code: 429"⟩, Cli.Attempt.exc ⟨"Error code: 429"⟩,
       Cli.Attempt.ok (.jsonVal (.obj [("step", .str "PLAN")]))] [] =
      .ok (.jsonVal (.obj [("step", .str "PLAN")])) [5, 5] :=
  retry_policy.2.2.2.1 2 (.jsonVal (.obj [("step", .str "PLAN")]))
    ⟨"Error code: 429"⟩ rfl

/-- Claim C3 counterexample: the claim says every malformed assistant
reply — including one that "lacks a recognized step kind" — is recovered
locally and never terminates the session.  A reply that is valid JSON but
not an object, such as `[1, 2]`, has no recognized step kind, yet
`step.get("step")` raises `AttributeError` on the parsed list (the
`try` only guards `json.loads`), terminating the session. -/
theorem nonobject_json_reply_aborts_session :
    hasRecognizedKind (.jsonVal (.arr [.num 1, .num 2])) = false
    ∧ App.run_agent "hi"
        [App.Event.reply (.jsonVal (.arr [.num 1, .num 2])) ⟨App.NetResult.ok 200 ""⟩] =
      .raised (App.message_history ++ [⟨"user", .text "hi"⟩,
          mkAssistant (.jsonVal (.arr [.num 1, .num 2]))])
        attributeErr := by
  constructor
  · rfl
  · rfl

/-- Claim C3 (amended): a reply that is not valid JSON, or that parses to
a JSON object without a recognized step kind, is recovered locally with
exactly one additional model call and never terminates the session; but a
reply that parses to a non-object JSON value (list, string, number,
boolean, null) aborts the session with an `AttributeError` raised by
`step.get("step")`. -/
theorem malformed_reply_recovery :
    (∀ (evs : List App.Event) (hist : List Message) (s : String) (w : App.World),
      App.loop (App.Event.reply (.text s) w :: evs) hist =
        App.loop evs (hist ++ [mkAssistant (.text s)]))
    ∧ (∀ (evs : List Cli.Event) (hist : List Message) (s : String) (w : Cli.World),
        Cli.loop (⟨[Cli.Attempt.ok (.text s)], w⟩ :: evs) hist =
          Cli.loop evs (hist ++ [mkAssistant (.text s)]))
    ∧ (∀ (evs : List App.Event) (hist : List Message)
         (fields : List (String × JVal)) (w : App.World),
        hasRecognizedKind (.jsonVal (.obj fields)) = false →
        App.loop (App.Event.reply (.jsonVal (.obj fields)) w :: evs) hist =
          App.loop evs (hist ++ [mkAssistant (.jsonVal (.obj fields))]))
    ∧ (∀ (evs : List Cli.Event) (hist : List Message)
         (fields : List (String × JVal)) (w : Cli.World),
        hasRecognizedKind (.jsonVal (.obj fields)) = false →
        Cli.loop (⟨[Cli.Attempt.ok (.jsonVal (.obj fields))], w⟩ :: evs) hist =
          Cli.loop evs (hist ++ [mkAssistant (.jsonVal (.obj fields))]))
    ∧ (∀ (evs : List App.Event) (hist : List Message) (j : JVal) (w : App.World),
        (∀ fields, j ≠ JVal.obj fields) →
        App.loop (App.Event.reply (.jsonVal j) w :: evs) hist =
          .raised (hist ++ [mkAssistant (.jsonVal j)]) attributeErr) := by
  refine ⟨?_, ?_, ?_, ?_, ?_⟩
  · intro evs hist s w
    simp [App.loop, stepBody_text]
  · intro evs hist s w
    simp [Cli.loop, Cli.safe_llm_call, stepBody_text]
  · intro evs hist fields w h
    simp [App.loop, stepBody_unrecognized App.tools w hist fields h]
  · intro evs hist fields w h
    simp [Cli.loop, Cli.safe_llm_call, stepBody_unrecognized Cli.tools w hist fields h]
  · intro evs hist j w h
    simp [App.loop, stepBody_nonobj App.tools w hist j h]

/-- Witness for C3 (amended): the spec's own scenario — the bare text
"not json" triggers a parse failure; the loop appends the raw assistant
message and issues exactly one more model call. -/
theorem malformed_reply_recovery_witness :
    App.loop [App.Event.reply (.text "not json") ⟨App.NetResult.ok 200 ""⟩] [] =
      App.loop [] [mkAssistant (.text "not json")] :=
  malformed_reply_recovery.1 [] [] "not json" ⟨App.NetResult.ok 200 ""⟩

/-- Claim C4 counterexample: the claim says a parsed reply whose step
field is absent or unrecognized makes the interpreter raise a Protocol
Error rather than silently ignoring the step.  Concretely, the reply
`{"step": "START"}` parses fine, matches none of the three `if` branches,
and the loop silently continues to the next model call — no error of any
kind is raised (the source contains no raise statement at all). -/
theorem unknown_step_kind_silently_ignored :
    hasRecognizedKind (.jsonVal (.obj [("step", .str "START")])) = false
    ∧ App.run_agent "hi"
        [App.Event.reply (.jsonVal (.obj [("step", .str "START")]))
          ⟨App.NetResult.ok 200 ""⟩] =
      .awaiting (App.message_history ++ [⟨"user", .text "hi"⟩,
          mkAssistant (.jsonVal (.obj [("step", .str "START")]))]) := by
  constructor
  · rfl
  · rfl

/-- Claim C4 (amended): for every successfully parsed object reply whose
step field is absent or holds any value outside PLAN / TOOL / OUTPUT, the
loop body raises nothing and silently ignores the step: the iteration is
a plain `continue` that appends only the assistant message and issues
another model call. -/
theorem unknown_step_kind_continues :
    (∀ (W : Type) (ts : Registry W) (w : W) (hist : List Message)
       (fields : List (String × JVal)),
      hasRecognizedKind (.jsonVal (.obj fields)) = false →
      stepBody ts w hist (.jsonVal (.obj fields)) =
        .next (hist ++ [mkAssistant (.jsonVal (.obj fields))]))
    ∧ (∀ (evs : List App.Event) (hist : List Message)
         (fields : List (String × JVal)) (w : App.World),
        hasRecognizedKind (.jsonVal (.obj fields)) = false →
        App.loop (App.Event.reply (.jsonVal (.obj fields)) w :: evs) hist =
          App.loop evs (hist ++ [mkAssistant (.jsonVal (.obj fields))]))
    ∧ (∀ (evs : List Cli.Event) (hist : List Message)
         (fields : List (String × JVal)) (w : Cli.World),
        hasRecognizedKind (.jsonVal (.obj fields)) = false →
        Cli.loop (⟨[Cli.Attempt.ok (.jsonVal (.obj fields))], w⟩ :: evs) hist =
          Cli.loop evs (hist ++ [mkAssistant (.jsonVal (.obj fields))])) := by
  refine ⟨fun _ ts w hist fields h => stepBody_unrecognized ts w hist fields h, ?_, ?_⟩
  · intro evs hist fields w h
    simp [App.loop, stepBody_unrecognized App.tools w hist fields h]
  · intro evs hist fields w h
    simp [Cli.loop, Cli.safe_llm_call, stepBody_unrecognized Cli.tools w hist fields h]

/-- Witness for C4 (amended): a reply echoing an OBSERVE step — a kind
the interpreter does not recognize — is silently skipped; the loop
continues with another model call. -/
theorem unknown_step_kind_continues_witness :
    App.loop [App.Event.reply (.jsonVal (.obj [("step", .str "OBSERVE")]))
        ⟨App.NetResult.ok 200 ""⟩] [] =
      App.loop [] [mkAssistant (.jsonVal (.obj [("step", .str "OBSERVE")]))] :=
  unknown_step_kind_continues.2.1 [] []
    [("step", .str "OBSERVE")] ⟨App.NetResult.ok 200 ""⟩ rfl
